import Mathlib

/- Verification of the request-routing and text-segmentation layer of the
F5-TTS gradio front-end (src/f5_tts/infer/infer_gradio_with_normalizer_old.py).

Strings are modelled as lists of characters.  External collaborators — the
synthesis engine (preprocess_ref_audio_text / infer_process / vocoder /
silence removal), the transcription service, the chat language model, the
file system and dynamically loaded normaliser modules — are opaque oracle
parameters: the code under verification only routes data between them. -/

abbrev Str := List Char

/-- Python `str.strip` whitespace test (the ASCII subset; exotic unicode
space characters are not modelled). -/
def pySpace (c : Char) : Bool :=
  if c = ' ' ∨ c = '\t' ∨ c = '\n' ∨ c = '\r' ∨ c = '\x0b' ∨ c = '\x0c' then true else false

/-- Python `str.strip`: drop leading and trailing whitespace. -/
def pyStrip (s : Str) : Str :=
  ((s.dropWhile pySpace).reverse.dropWhile pySpace).reverse

/-- Python truthiness of an optional string: `None` and the empty string are
falsy, every other string is truthy. -/
def pyTruthy : Option Str → Bool
  | none => false
  | some s => if s = [] then false else true

/- ===== Style-script parser =====
The script parser in generate_multistyle_speech (and its inlined copy in
validate_speech_types) is `re.split` with the lazy pattern matching an
opening brace, a lazy run of non-newline characters, and a closing brace,
followed by a loop pairing even tokens (text) with odd tokens (labels). -/

/-- One step of the lazy regex body match: after an opening brace, the match
body is everything up to the first closing brace, and the match fails if a
newline (which `.` does not match) appears before that closing brace.
Returns the captured body and the remainder after the closing brace. -/
def findClose : Str → Option (Str × Str)
  | [] => none
  | c :: cs =>
    if c = '}' then some ([], cs)
    else if c = '\n' then none
    else
      match findClose cs with
      | some (body, rest) => some (c :: body, rest)
      | none => none

/-- Prepend a character to the first token of a token list. -/
def consHead (c : Char) : List Str → List Str
  | [] => [[c]]
  | t :: ts => (c :: t) :: ts

/-- Prepend a string to the first token of a token list. -/
def prependHead (t : Str) : List Str → List Str
  | [] => [t]
  | x :: xs => (t ++ x) :: xs

/-- Fuel-indexed model of `re.split` with the brace pattern: scanning left to
right, each opening brace that has a matching close (per `findClose`) splits
the string, the captured label becoming its own (odd-position) token; an
opening brace without a matching close is ordinary text.  The fuel only needs
to be at least the length of the string (see `reSplitF_stab`). -/
def reSplitF : Nat → Str → List Str
  | 0, s => [s]
  | _ + 1, [] => [[]]
  | fuel + 1, c :: cs =>
    if c = '{' then
      match findClose cs with
      | some (body, rest) => [] :: body :: reSplitF fuel rest
      | none => consHead c (reSplitF fuel cs)
    else consHead c (reSplitF fuel cs)

/-- Model of `re.split` on the brace pattern used by the script parser. -/
def reSplit (s : Str) : List Str := reSplitF s.length s

/-- A parsed script segment: the active style label and a text span. -/
structure Segment where
  style : Str
  text : Str
deriving DecidableEq, Repr

/-- The default style label. -/
def regularStr : Str := "Regular".data

/-- The token-pairing loop of the script parser: even-position tokens are
text (stripped; dropped when empty), odd-position tokens set the current
style (also stripped). -/
def segmentsLoop : Str → List Str → List Segment
  | _, [] => []
  | style, [t] =>
    if pyStrip t = [] then [] else [⟨style, pyStrip t⟩]
  | style, t :: lbl :: rest =>
    if pyStrip t = [] then segmentsLoop (pyStrip lbl) rest
    else ⟨style, pyStrip t⟩ :: segmentsLoop (pyStrip lbl) rest

/-- The style-script parser of `generate_multistyle_speech` (lines 272-283):
split on brace markers, then pair tokens into segments starting from the
default style. -/
def parseSegments (genText : Str) : List Segment :=
  segmentsLoop regularStr (reSplit genText)

/-- Decides that a string contains no parseable brace marker: no opening
brace in it has a matching close. -/
def noMarkerB : Str → Bool
  | [] => true
  | c :: cs => (if c = '{' then (findClose cs).isNone else true) && noMarkerB cs

/- The inlined copy of the parser in validate_speech_types (lines 604-614).
The regex is the same library call; the pairing loop is transcribed
separately so the two copies can be compared. -/

/-- The token-pairing loop as inlined in `validate_speech_types`. -/
def segmentsLoopV : Str → List Str → List Segment
  | _, [] => []
  | style, [t] =>
    if pyStrip t = [] then [] else [⟨style, pyStrip t⟩]
  | style, t :: lbl :: rest =>
    if pyStrip t = [] then segmentsLoopV (pyStrip lbl) rest
    else ⟨style, pyStrip t⟩ :: segmentsLoopV (pyStrip lbl) rest

/-- The segment list computed by `validate_speech_types` before it compares
styles against the available speech-type names. -/
def parseSegmentsV (genText : Str) : List Segment :=
  segmentsLoopV regularStr (reSplit genText)

/- ===== Balanced scripts =====
A script "with balanced brace markers" is an optional leading text chunk
followed by label/text pairs, where text chunks contain no braces and labels
contain no braces and no newline. -/

/-- A balanced script: leading text and a list of (label, following text)
pairs. -/
structure BScript where
  lead : Str
  rest : List (Str × Str)
deriving DecidableEq, Repr

/-- Render the label/text pairs of a balanced script, wrapping each label in
braces. -/
def renderRest : List (Str × Str) → Str
  | [] => []
  | (l, t) :: r => '{' :: (l ++ '}' :: (t ++ renderRest r))

/-- Render a balanced script to its concrete string. -/
def renderScript (s : BScript) : Str := s.lead ++ renderRest s.rest

/-- The text content of a balanced script with the labels excluded. -/
def contentScript (s : BScript) : Str := s.lead ++ (s.rest.map Prod.snd).flatten

/-- The text content of a balanced script with the labels excluded and each
text span stripped of leading/trailing whitespace. -/
def stripContent (s : BScript) : Str :=
  pyStrip s.lead ++ (s.rest.map (fun p => pyStrip p.2)).flatten

/-- Text chunks of a balanced script contain no brace. -/
def noBrace (t : Str) : Bool :=
  t.all (fun c => if c = '{' ∨ c = '}' then false else true)

/-- Labels of a balanced script contain no brace and no newline. -/
def labelOkB (l : Str) : Bool :=
  l.all (fun c => if c = '{' ∨ c = '}' ∨ c = '\n' then false else true)

/-- Well-formedness of a balanced script. -/
def wfScript (s : BScript) : Bool :=
  noBrace s.lead && s.rest.all (fun p => labelOkB p.1 && noBrace p.2)

/-- Concatenation of the text spans of a segment list, in order. -/
def joinTexts (segs : List Segment) : Str := (segs.map Segment.text).flatten

/-- The token list a well-formed balanced script splits into, after its
leading text token: labels and texts alternating. -/
def interleave : List (Str × Str) → List Str
  | [] => []
  | (l, t) :: r => l :: t :: interleave r

/- ===== Inference dispatcher =====
`infer` (lines 121-185).  The model-selection block and the call to
infer_process / silence removal / spectrogram rendering are external; they
are absorbed into an engine oracle that is only consulted after the two
validation guards pass. -/

/-- The data produced by the external synthesis engine for one request:
sample rate, waveform, spectrogram artifact path, and the (possibly
auto-transcribed) reference text coming back from preprocessing. -/
structure EngineOut where
  sr : Nat
  wave : List Int
  spectro : Str
  refTextOut : Str
deriving DecidableEq, Repr

/-- The engine oracle: reference audio path, reference text, text to
generate.  Generation parameters (model choice, silence removal, cross-fade,
step count, speed) only alter the oracle's behaviour and are absorbed. -/
abbrev Engine := Str → Option Str → Str → EngineOut

/-- Warning emitted when the reference audio is missing. -/
def warnNeedRefAudio : Str := "Please provide reference audio.".data

/-- Warning emitted when the generation text is empty after stripping. -/
def warnNeedGenText : Str := "Please enter text to generate.".data

/-- Result of the inference dispatcher: either an early validation return
(the two gradio output slots receive no-change updates and the supplied
reference text is passed back), or a successful synthesis. -/
inductive InferRet where
  | early (warning : Str) (refText : Option Str)
  | ok (sr : Nat) (wave : List Int) (spectro : Str) (refTextOut : Str)
deriving DecidableEq, Repr

/-- The inference dispatcher `infer`: validates that reference audio is
present and that the generation text is non-empty after stripping, then
defers to the engine oracle. -/
def inferE (eng : Engine) (refAudioOrig : Option Str) (refText : Option Str)
    (genText : Str) : InferRet :=
  if pyTruthy refAudioOrig = false then .early warnNeedRefAudio refText
  else if pyStrip genText = [] then .early warnNeedGenText refText
  else
    let out := eng (refAudioOrig.getD []) refText genText
    .ok out.sr out.wave out.spectro out.refTextOut

/- ===== Normaliser plugin loader =====
A normaliser environment maps a choice name to: `none` when the file
normalisers/<choice>/normaliser.py does not exist; `some none` when the file
loads but exposes no `normalize` function; `some (some f)` when it exposes
the transform `f`. -/

/-- The normaliser plugin environment oracle. -/
abbrev NormEnv := Str → Option (Option (Str → Str))

/-- The radio value meaning that no normaliser is chosen. -/
def noneChoice : Str := "None".data

/-- Diagnostic printed by basic_tts when normaliser.py lacks `normalize`. -/
def msgNormNoFunc : Str :=
  "A normaliser.py nem tartalmazza a \x27normalize\x27 függvényt, az eredeti szöveg kerül használatra.".data

/-- Diagnostic printed by basic_tts when normaliser.py is not found. -/
def msgNormNoFile : Str :=
  "A megadott normaliser.py fájl nem található, az eredeti szöveg kerül használatra.".data

/-- The normaliser resolution inlined in `basic_tts` (lines 199-215):
returns the processed text and the diagnostics printed. -/
def basicNormalize (env : NormEnv) (choice : Str) (genText : Str) : Str × List Str :=
  if choice = noneChoice then (genText, [])
  else
    match env choice with
    | some (some f) => (f genText, [])
    | some none => (genText, [msgNormNoFunc])
    | none => (genText, [msgNormNoFile])

/-- `basic_tts` (lines 189-228): resolve the normaliser, then dispatch to
`infer` with the processed text.  Returns the dispatcher result together
with the diagnostics printed by the normaliser resolution. -/
def basic_tts (eng : Engine) (env : NormEnv) (refAudio : Option Str)
    (refText : Option Str) (genText : Str) (choice : Str) : InferRet × List Str :=
  let p := basicNormalize env choice genText
  (inferE eng refAudio refText p.1, p.2)

/-- The normaliser-module load at the top of `generate_multistyle_speech`
(lines 249-259): when a normaliser is chosen and its file exists the module
is kept, otherwise the module is `none`.  No branch prints a diagnostic;
the second component records the diagnostics printed (always empty). -/
def msNormLoad (env : NormEnv) (choice : Str) : Option (Option (Str → Str)) × List Str :=
  if choice = noneChoice then (none, [])
  else
    match env choice with
    | some m => (some m, [])
    | none => (none, [])

/-- Per-segment normalisation in `generate_multistyle_speech` (lines
296-297): applied only when the module is loaded and exposes `normalize`. -/
def normApp (nmod : Option (Option (Str → Str))) (t : Str) : Str :=
  match nmod with
  | some (some f) => f t
  | _ => t

/- ===== Multi-style orchestrator ===== -/

/-- One entry of the speech-types ordered mapping: reference audio path (the
empty string for placeholder rows) and reference text. -/
structure STEntry where
  audio : Str
  refText : Option Str
deriving DecidableEq, Repr

/-- The speech-types OrderedDict, as an association list in insertion
order. -/
abbrev SpeechDict := List (Str × STEntry)

/-- OrderedDict assignment: overwrite in place when the key exists, append
otherwise. -/
def odInsert (k : Str) (v : STEntry) : SpeechDict → SpeechDict
  | [] => [(k, v)]
  | (k', v') :: rest => if k' = k then (k, v) :: rest else (k', v') :: odInsert k v rest

/-- OrderedDict lookup. -/
def odLookup (k : Str) : SpeechDict → Option STEntry
  | [] => none
  | (k', v) :: rest => if k' = k then some v else odLookup k rest

/-- In-place update of the `ref_text` field of the entry at a key. -/
def odSetRefText (k : Str) (rt : Option Str) : SpeechDict → SpeechDict
  | [] => []
  | (k', v) :: rest =>
    if k' = k then (k', ⟨v.audio, rt⟩) :: rest
    else (k', v) :: odSetRefText k rt rest

/-- The reference texts of all entries, in insertion order (the trailing
outputs of `generate_multistyle_speech`). -/
def refTextsOf (st : SpeechDict) : List (Option Str) := st.map (fun p => p.2.refText)

/-- Placeholder key for an unnamed or audio-less speech-type row at a given
position. -/
def atKey (i : Nat) : Str := '@' :: ((Nat.repr i).data ++ ['@'])

/-- Truncating three-way zip, as Python `zip`. -/
def zip3 : List α → List β → List γ → List (α × β × γ)
  | x :: xs, y :: ys, z :: zs => (x, y, z) :: zip3 xs ys zs
  | _, _, _ => []

/-- The speech-types dictionary construction of `generate_multistyle_speech`
(lines 261-270): a row with truthy name and truthy audio is inserted under
its name; any other row is inserted under a positional placeholder key with
empty audio and empty reference text. -/
def buildST : Nat → List (Option Str × Option Str × Option Str) → SpeechDict → SpeechDict
  | _, [], st => st
  | idx, (n, a, r) :: rows, st =>
    buildST (idx + 1) rows
      (if pyTruthy n = true ∧ pyTruthy a = true then odInsert (n.getD []) ⟨a.getD [], r⟩ st
       else odInsert (atKey idx) ⟨[], some []⟩ st)

/-- Warning emitted when a segment style is not a key of the mapping. -/
def warnNotAvail (style : Str) : Str :=
  "Type ".data ++ style ++ " is not available, using Regular as default.".data

/-- Warning emitted on the KeyError path of the generation loop. -/
def warnProvideFor (style : Str) : Str :=
  "Please provide reference audio for type ".data ++ style ++ ".".data

/-- Warning emitted when no segment produced audio. -/
def warnNoAudio : Str := "No audio generated.".data

/-- Python exceptions reachable in the modelled code: unpacking the
dispatcher's no-change update marker as a (sample rate, audio) pair. -/
inductive PyErr where
  | unpackError
deriving DecidableEq, Repr

/-- Outcome of a multi-style request: a normal return carrying the gradio
warnings raised, the optional (sample rate, concatenated waveform) audio
output, and the per-speech-type reference texts; or an uncaught exception. -/
inductive MSOutcome where
  | done (warnings : List Str) (audioOut : Option (Nat × List Int)) (refTexts : List (Option Str))
  | raised (warnings : List Str) (e : PyErr)
deriving DecidableEq, Repr

/-- The generation loop of `generate_multistyle_speech` (lines 285-315):
for each segment, fall back to the default style (with a warning) when the
segment style is not a key; abort with a warning on the KeyError path
(default style itself not a key); call the dispatcher, an early dispatcher
return making the subsequent tuple unpacking raise; otherwise accumulate the
waveform and store the returned reference text back into the mapping. -/
def msLoop (eng : Engine) (nmod : Option (Option (Str → Str))) :
    SpeechDict → List Str → List (List Int) → Nat → List Segment → MSOutcome
  | st, warns, acc, sr, [] =>
    if acc = [] then .done (warns ++ [warnNoAudio]) none (refTextsOf st)
    else .done warns (some (sr, acc.flatten)) (refTextsOf st)
  | st, warns, acc, _sr, seg :: segs =>
    let inDict := (odLookup seg.style st).isSome
    let cur := if inDict then seg.style else regularStr
    let warns1 := if inDict then warns else warns ++ [warnNotAvail seg.style]
    let text := normApp nmod seg.text
    match odLookup cur st with
    | none => .done (warns1 ++ [warnProvideFor cur]) none (refTextsOf st)
    | some e =>
      match inferE eng (some e.audio) e.refText text with
      | .early w _ => .raised (warns1 ++ [w]) .unpackError
      | .ok sr' wave _ rto =>
        msLoop eng nmod (odSetRefText cur (some rto) st) warns1 (acc ++ [wave]) sr' segs

/-- `generate_multistyle_speech` (lines 232-315): load the normaliser
module, build the speech-types mapping from the row inputs, parse the
script, and run the generation loop.  The second component records the
diagnostics printed by the normaliser load (the source prints none). -/
def generate_multistyle (eng : Engine) (env : NormEnv) (genText : Str)
    (names audios refs : List (Option Str)) (normChoice : Str) : MSOutcome × List Str :=
  let nm := msNormLoad env normChoice
  (msLoop eng nm.1 (buildST 0 (zip3 names audios refs) []) [] [] 0 (parseSegments genText),
   nm.2)

/-- The style a segment resolves to: itself when it is a key of the mapping,
the default style otherwise. -/
def resolveStyle (st : SpeechDict) (style : Str) : Str :=
  if (odLookup style st).isSome then style else regularStr

/-- A segment on which the generation loop proceeds normally: its resolved
style is a key whose audio is non-empty, and its (normalised) text is
non-empty after stripping. -/
def segReadyB (nmod : Option (Option (Str → Str))) (st : SpeechDict) (seg : Segment) : Bool :=
  match odLookup (resolveStyle st seg.style) st with
  | some e =>
    if e.audio = [] then false
    else if pyStrip (normApp nmod seg.text) = [] then false else true
  | none => false

/- ===== Chat orchestrator ===== -/

/-- One role-tagged message of the conversation state. -/
structure ChatMsg where
  role : Str
  content : Str
deriving DecidableEq, Repr

/-- `process_audio_input` (lines 319-331): no turn proceeds when the audio
input is falsy and the typed text strips to empty; otherwise transcribe (if
audio is present), guard again on empty text, and append the user message
and the generated assistant reply.  The net effect of the intermediate
history mutation (append then replace last) is a single appended pair. -/
def process_audio_input (transcribe : Str → Str → Str) (genResp : List ChatMsg → Str)
    (audioPath : Option Str) (text : Str) (history : List (Str × Option Str))
    (conv : List ChatMsg) : List (Str × Option Str) × List ChatMsg × Str :=
  if pyTruthy audioPath = false ∧ pyStrip text = [] then (history, conv, [])
  else
    let text1 := if pyTruthy audioPath = true then transcribe (audioPath.getD []) text else text
    if pyStrip text1 = [] then (history, conv, [])
    else
      let conv1 := conv ++ [⟨"user".data, text1⟩]
      let resp := genResp conv1
      (history ++ [(text1, some resp)], conv1 ++ [⟨"assistant".data, resp⟩], [])

/-- Return shape of `generate_audio_response`: the guard paths return a
single `None` while the success path returns an (audio result, reference
text) pair — two values for the two wired output components. -/
inductive ChatAudioRet where
  | single
  | pair (audioResult : Option (Nat × List Int)) (refTextOut : Option Str)
deriving DecidableEq, Repr

/-- `generate_audio_response` (lines 335-351): guard on empty history,
missing reference audio, or a last history entry without an assistant
reply; otherwise synthesize the last reply.  A dispatcher early return
yields a pair whose audio slot is the no-change marker (modelled `none`). -/
def generate_audio_response (eng : Engine) (history : List (Str × Option Str))
    (refAudio : Option Str) (refText : Option Str) : ChatAudioRet :=
  if history = [] ∨ pyTruthy refAudio = false then .single
  else
    match history.getLast? with
    | none => .single
    | some (_, lastResp) =>
      if pyTruthy lastResp = false then .single
      else
        match inferE eng refAudio refText (lastResp.getD []) with
        | .early _ rt => .pair none rt
        | .ok sr wave _ rto => .pair (some (sr, wave)) (some rto)

/- ===== Model selector / persisted custom-model record ===== -/

/-- DEFAULT_TTS_MODEL_CFG[0]: the built-in default checkpoint locator. -/
def defaultCkpt : Str := "hf://SWivid/F5-TTS/F5TTS_v1_Base/model_1250000.safetensors".data

/-- DEFAULT_TTS_MODEL_CFG[1]: the built-in default vocabulary locator. -/
def defaultVocab : Str := "hf://SWivid/F5-TTS/F5TTS_v1_Base/vocab.txt".data

/-- DEFAULT_TTS_MODEL_CFG[2]: the built-in default architecture config, as
serialized by json.dumps. -/
def defaultCfg : Str :=
  "\x7b\"dim\": 1024, \"depth\": 22, \"heads\": 16, \"ff_mult\": 2, \"text_dim\": 512, \"conv_layers\": 4\x7d".data

/-- The radio value selecting the custom model variant. -/
def customStr : Str := "Custom".data

/-- The radio value selecting the built-in default model variant. -/
def f5Str : Str := "F5-TTS_v1".data

/-- The process-wide model choice: a built-in variant name, or the custom
variant with checkpoint, vocabulary and parsed config. -/
inductive TtsChoice where
  | named (name : Str)
  | custom (ckpt vocab cfg : Str)
deriving DecidableEq, Repr

/-- The state touched by the model selector: the global model choice and the
persisted record file content (`none` when the file does not exist). -/
structure ModelState where
  choice : TtsChoice
  file : Option Str
deriving DecidableEq, Repr

/-- Oracle for `json.loads` on config strings: `none` models a raised
ValueError, `some c` a successful parse with canonical form `c`. -/
abbrev JParse := Str → Option Str

/-- Exceptions reachable in the model selector: indexing a too-short record
and a JSON parse failure. -/
inductive SwErr where
  | indexError
  | jsonError
deriving DecidableEq, Repr

/-- A gradio dropdown update: visibility and an optional new value. -/
structure DropUpd where
  visible : Bool
  value : Option Str
deriving DecidableEq, Repr

deriving instance DecidableEq for Except

/-- Split a string at newline characters (every component, including a
trailing empty one). -/
def splitNl : Str → List Str
  | [] => [[]]
  | c :: cs =>
    if c = '\n' then [] :: splitNl cs
    else consHead c (splitNl cs)

/-- Python file-line iteration (modulo the stripping applied next): the
newline-separated components, without the empty component a trailing newline
would add. -/
def fileLines (s : Str) : List Str :=
  let parts := splitNl s
  if parts.getLast? = some [] then parts.dropLast else parts

/-- `load_last_used_custom` (lines 756-765): read the record file and strip
each line; on a missing file return the built-in defaults.  Only the
missing-file case (FileNotFoundError) is caught. -/
def load_last_used_custom (file : Option Str) : List Str :=
  match file with
  | some content => (fileLines content).map pyStrip
  | none => [defaultCkpt, defaultVocab, defaultCfg]

/-- `switch_tts_model` (lines 766-776): selecting Custom reloads the last
used record — indexing its first three entries (IndexError when the record
is shorter) and parsing the third as JSON (ValueError on bad JSON) — and
makes the three custom fields visible with the restored values; selecting a
built-in variant hides them. -/
def switch_tts_model (jparse : JParse) (st : ModelState) (newChoice : Str) :
    Except SwErr (ModelState × DropUpd × DropUpd × DropUpd) :=
  if newChoice = customStr then
    let cust := load_last_used_custom st.file
    match cust[0]?, cust[1]?, cust[2]? with
    | some c0, some c1, some c2 =>
      match jparse c2 with
      | some cfg =>
        .ok (⟨.custom c0 c1 cfg, st.file⟩,
          ⟨true, some c0⟩, ⟨true, some c1⟩, ⟨true, some c2⟩)
      | none => .error .jsonError
    | _, _, _ => .error .indexError
  else
    .ok (⟨.named newChoice, st.file⟩, ⟨false, none⟩, ⟨false, none⟩, ⟨false, none⟩)

/-- `set_custom_model` (lines 777-781): parse the config (ValueError on bad
JSON, raised before the file is written), set the global choice, and rewrite
the record file as three newline-terminated lines. -/
def set_custom_model (jparse : JParse) (_st : ModelState) (ckpt vocab cfg : Str) :
    Except SwErr ModelState :=
  match jparse cfg with
  | none => .error .jsonError
  | some c =>
    .ok ⟨.custom ckpt vocab c, some (ckpt ++ '\n' :: (vocab ++ '\n' :: (cfg ++ ['\n'])))⟩

/- ===== Concrete oracle fixtures for witnesses and counterexamples ===== -/

/-- A trivial engine oracle. -/
def eng0 : Engine := fun _ _ _ => ⟨0, [], [], []⟩

/-- A normaliser environment in which every plugin file is missing. -/
def env0 : NormEnv := fun _ => none

/-- A trivial transcription oracle. -/
def tr0 : Str → Str → Str := fun _ t => t

/-- A trivial chat-response oracle. -/
def resp0 : List ChatMsg → Str := fun _ => ['o', 'k']

/-- A JSON oracle accepting every string; used only where the program never
consults json.loads (the short-record IndexError is raised first) or
consults it on the genuinely valid built-in default config. -/
def jparseOk : JParse := fun s => some s

/-- The serialization of the empty JSON object, the smallest config string
json.loads accepts. -/
def emptyObj : Str := "\x7b\x7d".data

/-- A JSON oracle matching json.loads on every input this development feeds
it: it accepts the two genuinely valid JSON configs — the empty object and
the built-in default config — and rejects (raises on) everything else. -/
def jparseObj : JParse := fun s =>
  if s = emptyObj then some s
  else if s = defaultCfg then some s
  else none

/- ===== Parser lemmas ===== -/

theorem findClose_length : ∀ {cs body rest : Str}, findClose cs = some (body, rest) →
    rest.length < cs.length := by
  intro cs
  induction cs with
  | nil => intro body rest h; simp [findClose] at h
  | cons c cs ih =>
    intro body rest h
    simp only [findClose] at h
    split at h
    · cases h
      simp
    · split at h
      · exact absurd h (by simp)
      · cases hfc : findClose cs with
        | none => rw [hfc] at h; simp at h
        | some pr =>
          obtain ⟨body1, rest1⟩ := pr
          rw [hfc] at h
          simp only [Option.some.injEq, Prod.mk.injEq] at h
          obtain ⟨hb, hr⟩ := h
          subst hr
          have := ih hfc
          simp only [List.length_cons]
          omega

theorem reSplitF_stab : ∀ (f1 : Nat), ∀ (f2 : Nat) (s : Str), s.length ≤ f1 → s.length ≤ f2 →
    reSplitF f1 s = reSplitF f2 s := by
  intro f1
  induction f1 with
  | zero =>
    intro f2 s h1 _
    have hs : s = [] := List.eq_nil_of_length_eq_zero (Nat.le_zero.mp h1)
    subst hs
    cases f2 <;> rfl
  | succ f ih =>
    intro f2 s h1 h2
    cases s with
    | nil => cases f2 <;> rfl
    | cons c cs =>
      cases f2 with
      | zero => simp at h2
      | succ g =>
        have hcs1 : cs.length ≤ f := by simp only [List.length_cons] at h1; omega
        have hcs2 : cs.length ≤ g := by simp only [List.length_cons] at h2; omega
        by_cases hc : c = '{'
        · simp only [reSplitF, if_pos hc]
          cases hfc : findClose cs with
          | none =>
            show consHead c (reSplitF f cs) = consHead c (reSplitF g cs)
            rw [ih g cs hcs1 hcs2]
          | some pr =>
            obtain ⟨body, rest⟩ := pr
            have hr := findClose_length hfc
            show ([] : Str) :: body :: reSplitF f rest = [] :: body :: reSplitF g rest
            rw [ih g rest (by omega) (by omega)]
        · simp only [reSplitF, if_neg hc]
          rw [ih g cs hcs1 hcs2]

theorem reSplit_fuel {f : Nat} {s : Str} (h : s.length ≤ f) : reSplitF f s = reSplit s :=
  reSplitF_stab f s.length s h (Nat.le_refl _)

theorem reSplitF_ne_nil : ∀ (f : Nat) (s : Str), reSplitF f s ≠ [] := by
  intro f s
  cases f with
  | zero => simp [reSplitF]
  | succ f =>
    cases s with
    | nil => simp [reSplitF]
    | cons c cs =>
      simp only [reSplitF]
      split
      · cases hfc : findClose cs with
        | none => cases h2 : reSplitF f cs <;> simp [consHead]
        | some pr => simp [hfc]
      · cases h2 : reSplitF f cs <;> simp [consHead]

theorem reSplit_ne_nil (s : Str) : reSplit s ≠ [] := reSplitF_ne_nil _ _

theorem consHead_prependHead (c : Char) (t : Str) (l : List Str) :
    consHead c (prependHead t l) = prependHead (c :: t) l := by
  cases l <;> rfl

theorem prependHead_nil {l : List Str} (h : l ≠ []) : prependHead [] l = l := by
  cases l with
  | nil => exact absurd rfl h
  | cons x xs => simp [prependHead]

theorem reSplit_text (t u : Str) (h : ∀ c ∈ t, c ≠ '{') :
    reSplit (t ++ u) = prependHead t (reSplit u) := by
  induction t with
  | nil =>
    simp only [List.nil_append]
    rw [prependHead_nil (reSplit_ne_nil u)]
  | cons c t ih =>
    have hc : c ≠ '{' := h c (by simp)
    have ht : ∀ x ∈ t, x ≠ '{' := fun x hx => h x (by simp [hx])
    show reSplitF ((c :: (t ++ u)).length) (c :: (t ++ u)) = _
    simp only [List.length_cons, reSplitF, if_neg hc]
    rw [show reSplitF (t ++ u).length (t ++ u) = reSplit (t ++ u) from rfl, ih ht,
      consHead_prependHead]

theorem findClose_label (l u : Str) (h : ∀ c ∈ l, c ≠ '}' ∧ c ≠ '\n') :
    findClose (l ++ '}' :: u) = some (l, u) := by
  induction l with
  | nil => simp [findClose]
  | cons c l ih =>
    have hc := h c (by simp)
    have hl : ∀ x ∈ l, x ≠ '}' ∧ x ≠ '\n' := fun x hx => h x (by simp [hx])
    simp only [List.cons_append, findClose, if_neg hc.1, if_neg hc.2, List.append_eq, ih hl]

theorem reSplit_marker (l u : Str) (h : ∀ c ∈ l, c ≠ '}' ∧ c ≠ '\n') :
    reSplit ('{' :: (l ++ '}' :: u)) = [] :: l :: reSplit u := by
  have hfc := findClose_label l u h
  have hle : u.length ≤ (l ++ '}' :: u).length := by
    simp only [List.length_append, List.length_cons]
    omega
  show reSplitF (('{' :: (l ++ '}' :: u)).length) _ = _
  simp only [List.length_cons, reSplitF, eq_self_iff_true, if_true, List.append_eq, hfc]
  rw [reSplit_fuel hle]

theorem noMarkerB_reSplit : ∀ s : Str, noMarkerB s = true → reSplit s = [s] := by
  intro s
  induction s with
  | nil => intro _; rfl
  | cons c cs ih =>
    intro h
    simp only [noMarkerB, Bool.and_eq_true] at h
    obtain ⟨h1, h2⟩ := h
    show reSplitF (cs.length + 1) (c :: cs) = [c :: cs]
    simp only [reSplitF]
    by_cases hc : c = '{'
    · rw [if_pos hc]
      rw [if_pos hc] at h1
      cases hfc : findClose cs with
      | none =>
        rw [show reSplitF cs.length cs = reSplit cs from rfl, ih h2]
        rfl
      | some pr => rw [hfc] at h1; simp at h1
    · rw [if_neg hc]
      rw [show reSplitF cs.length cs = reSplit cs from rfl, ih h2]
      rfl

theorem noLBrace_noMarkerB : ∀ s : Str, (∀ c ∈ s, c ≠ '{') → noMarkerB s = true := by
  intro s
  induction s with
  | nil => intro _; rfl
  | cons c cs ih =>
    intro h
    simp only [noMarkerB, Bool.and_eq_true]
    constructor
    · rw [if_neg (h c (by simp))]
    · exact ih (fun x hx => h x (by simp [hx]))

theorem noBrace_not_lbrace {t : Str} (h : noBrace t = true) : ∀ c ∈ t, c ≠ '{' := by
  intro c hc heq
  have hb := (List.all_eq_true.mp h) c hc
  subst heq
  rw [if_pos (Or.inl rfl)] at hb
  exact Bool.noConfusion hb

theorem labelOk_props {l : Str} (h : labelOkB l = true) : ∀ c ∈ l, c ≠ '}' ∧ c ≠ '\n' := by
  intro c hc
  have hb := (List.all_eq_true.mp h) c hc
  constructor
  · intro heq
    subst heq
    rw [if_pos (Or.inr (Or.inl rfl))] at hb
    exact Bool.noConfusion hb
  · intro heq
    subst heq
    rw [if_pos (Or.inr (Or.inr rfl))] at hb
    exact Bool.noConfusion hb

theorem reSplit_render : ∀ (rest : List (Str × Str)) (lead : Str),
    noBrace lead = true → rest.all (fun p => labelOkB p.1 && noBrace p.2) = true →
    reSplit (lead ++ renderRest rest) = lead :: interleave rest := by
  intro rest
  induction rest with
  | nil =>
    intro lead hl _
    simp only [renderRest, List.append_nil, interleave]
    exact noMarkerB_reSplit lead (noLBrace_noMarkerB lead (noBrace_not_lbrace hl))
  | cons p r ih =>
    obtain ⟨l, t⟩ := p
    intro lead hl hr
    simp only [List.all_cons, Bool.and_eq_true] at hr
    obtain ⟨⟨hlab, hnb⟩, hrest⟩ := hr
    simp only [renderRest]
    rw [reSplit_text lead _ (noBrace_not_lbrace hl)]
    rw [reSplit_marker l _ (labelOk_props hlab)]
    rw [ih t hnb hrest]
    simp [prependHead, interleave]

theorem joinTexts_cons (s : Segment) (segs : List Segment) :
    joinTexts (s :: segs) = s.text ++ joinTexts segs := rfl

theorem segLoop_join : ∀ (rest : List (Str × Str)) (style lead : Str),
    joinTexts (segmentsLoop style (lead :: interleave rest)) =
      pyStrip lead ++ (rest.map (fun p => pyStrip p.2)).flatten := by
  intro rest
  induction rest with
  | nil =>
    intro style lead
    simp only [interleave, segmentsLoop]
    by_cases h : pyStrip lead = []
    · rw [if_pos h, h]
      simp [joinTexts]
    · rw [if_neg h]
      simp [joinTexts]
  | cons p r ih =>
    obtain ⟨l, t⟩ := p
    intro style lead
    simp only [interleave, segmentsLoop]
    by_cases h : pyStrip lead = []
    · rw [if_pos h]
      rw [ih (pyStrip l) t]
      rw [h]
      simp
    · rw [if_neg h]
      rw [joinTexts_cons]
      rw [ih (pyStrip l) t]
      simp [List.append_assoc]

/- ===== Claim C1 ===== -/

/-- C1 (counterexample): the claim "parsing and then concatenating the
segment texts in order reconstructs the original text content of the script
with the labels excluded" fails on the balanced, marker-free script made of
a space followed by the letter a: the parser strips the span, so the
re-joined text drops the leading space. -/
theorem C1_counterexample :
    wfScript ⟨[' ', 'a'], []⟩ = true ∧
      joinTexts (parseSegments (renderScript ⟨[' ', 'a'], []⟩)) ≠
        contentScript ⟨[' ', 'a'], []⟩ := by
  decide

/-- C1 (amended): over every well-formed balanced script, parsing and then
concatenating the segment texts in order reconstructs the text content with
the labels excluded, up to stripping each text span of leading and trailing
whitespace (whitespace-only spans contributing nothing). -/
theorem C1_parse_join_stripped (s : BScript) (h : wfScript s = true) :
    joinTexts (parseSegments (renderScript s)) = stripContent s := by
  obtain ⟨lead, rest⟩ := s
  simp only [wfScript, Bool.and_eq_true] at h
  obtain ⟨hl, hr⟩ := h
  simp only [parseSegments, renderScript]
  rw [reSplit_render rest lead hl hr]
  rw [segLoop_join rest regularStr lead]
  rfl

/-- C1 (witness): the amended statement evaluated on a concrete two-segment
script. -/
theorem C1_witness :
    joinTexts (parseSegments (renderScript ⟨"Hello ".data, [("Happy".data, " world".data)]⟩)) =
      stripContent ⟨"Hello ".data, [("Happy".data, " world".data)]⟩ :=
  C1_parse_join_stripped ⟨"Hello ".data, [("Happy".data, " world".data)]⟩ (by decide)

/- ===== Claim C2 ===== -/

/-- C2 (counterexample): the claim "every script containing no brace markers
yields exactly one segment" fails on the empty script, which contains no
marker and yields no segment at all. -/
theorem C2_counterexample : noMarkerB [] = true ∧ (parseSegments []).length ≠ 1 := by
  decide

/-- C2 (amended): a script with no parseable brace marker yields exactly one
segment tagged with the default style "Regular" — carrying the stripped
script text — unless the script strips to empty, in which case it yields no
segment. -/
theorem C2_single_segment (s : Str) (h : noMarkerB s = true) :
    parseSegments s = if pyStrip s = [] then [] else [⟨regularStr, pyStrip s⟩] := by
  simp only [parseSegments]
  rw [noMarkerB_reSplit s h]
  rfl

/-- C2 (witness): the amended statement evaluated on a concrete marker-free
script. -/
theorem C2_witness :
    parseSegments "hi".data =
      if pyStrip "hi".data = [] then [] else [⟨regularStr, pyStrip "hi".data⟩] :=
  C2_single_segment "hi".data (by decide)

/- ===== Claim C9 ===== -/

theorem segmentsLoopV_eq : ∀ (toks : List Str) (style : Str),
    segmentsLoopV style toks = segmentsLoop style toks
  | [], _ => rfl
  | [_], _ => rfl
  | _ :: lbl :: rest, _ => by
    simp only [segmentsLoopV, segmentsLoop, segmentsLoopV_eq rest (pyStrip lbl)]

/-- C9: the segment sequence computed by the pre-submit validation function
`validate_speech_types` equals, on every script, the segment sequence
computed by `generate_multistyle_speech`: the two inlined copies of the
style-script parser are extensionally equal. -/
theorem C9_parsers_agree (genText : Str) : parseSegmentsV genText = parseSegments genText := by
  simp only [parseSegmentsV, parseSegments, segmentsLoopV_eq]

/- ===== Claim C3 ===== -/

/-- C3: whenever the reference audio is absent (falsy) or the generation
text strips to empty, the inference dispatcher returns early — emitting one
of the two validation warnings, producing no audio and no spectrogram and
not raising — and passes the supplied reference text back unchanged. -/
theorem C3_validation_guard (eng : Engine) (ra : Option Str) (rt : Option Str) (gt : Str)
    (h : pyTruthy ra = false ∨ pyStrip gt = []) :
    ∃ w, inferE eng ra rt gt = .early w rt ∧ (w = warnNeedRefAudio ∨ w = warnNeedGenText) := by
  by_cases h1 : pyTruthy ra = false
  · exact ⟨warnNeedRefAudio, by simp [inferE, h1], Or.inl rfl⟩
  · have h2 : pyStrip gt = [] := h.resolve_left h1
    refine ⟨warnNeedGenText, ?_, Or.inr rfl⟩
    simp [inferE, h1, h2]

/-- C3 (witness): the guard evaluated with absent reference audio. -/
theorem C3_witness :
    ∃ w, inferE eng0 none (some ['t']) ['h', 'i'] = .early w (some ['t']) ∧
      (w = warnNeedRefAudio ∨ w = warnNeedGenText) :=
  C3_validation_guard eng0 none (some ['t']) ['h', 'i'] (Or.inl (by decide))

/- ===== Claim C8 ===== -/

/-- C8: when the chat audio input is falsy and the typed text strips to
empty, no turn proceeds: the displayed history and the conversation state
are returned unchanged (with a cleared textbox) and no message is
appended. -/
theorem C8_no_turn (transcribe : Str → Str → Str) (genResp : List ChatMsg → Str)
    (audioPath : Option Str) (text : Str) (history : List (Str × Option Str))
    (conv : List ChatMsg) (h1 : pyTruthy audioPath = false) (h2 : pyStrip text = []) :
    process_audio_input transcribe genResp audioPath text history conv = (history, conv, []) := by
  simp [process_audio_input, h1, h2]

/-- C8 (witness): the guard evaluated on a concrete empty turn. -/
theorem C8_witness :
    process_audio_input tr0 resp0 none [' '] [(['q'], some ['a'])] [⟨"system".data, ['p']⟩] =
      ([(['q'], some ['a'])], [⟨"system".data, ['p']⟩], []) :=
  C8_no_turn tr0 resp0 none [' '] [(['q'], some ['a'])] [⟨"system".data, ['p']⟩]
    (by decide) (by decide)

/- ===== Claim C10 ===== -/

/-- C10: on each guard path — empty history, falsy reference audio, or a
last history entry whose assistant reply is falsy — the chat audio-response
generator returns the single value modelled by `.single` (Python `None`),
not the two-component (audio result, reference text) pair it returns on
success; the two wired output components thus receive values of different
arity there. -/
theorem C10_guard_single (eng : Engine) (history : List (Str × Option Str))
    (refAudio : Option Str) (refText : Option Str)
    (h : history = [] ∨ pyTruthy refAudio = false ∨
      (history.getLast?.map (fun p => pyTruthy p.2)) = some false) :
    generate_audio_response eng history refAudio refText = .single := by
  rcases h with h | h | h
  · simp [generate_audio_response, h]
  · simp [generate_audio_response, h]
  · by_cases he : history = [] ∨ pyTruthy refAudio = false
    · simp [generate_audio_response, he]
    · simp only [generate_audio_response, if_neg he]
      cases hl : history.getLast? with
      | none => rfl
      | some p =>
        obtain ⟨u, a⟩ := p
        rw [hl] at h
        simp only [Option.map_some', Option.some.injEq] at h
        simp [h]

/-- C10 (witness): the empty-history guard evaluated concretely. -/
theorem C10_witness : generate_audio_response eng0 [] (some ['r']) none = .single :=
  C10_guard_single eng0 [] (some ['r']) none (Or.inl rfl)

/- ===== Record-file lemmas for claims C5 and C6 ===== -/

theorem splitNl_append (a u : Str) (h : '\n' ∉ a) :
    splitNl (a ++ '\n' :: u) = a :: splitNl u := by
  induction a with
  | nil => simp [splitNl]
  | cons c a ih =>
    have hc : c ≠ '\n' := by
      intro heq
      apply h
      rw [← heq]
      exact List.mem_cons_self c a
    have ha : '\n' ∉ a := fun hx => h (List.mem_cons_of_mem c hx)
    simp only [List.cons_append, splitNl, if_neg hc, List.append_eq]
    rw [ih ha]
    rfl

theorem fileLines_three (a b c : Str) (ha : '\n' ∉ a) (hb : '\n' ∉ b) (hc : '\n' ∉ c) :
    fileLines (a ++ '\n' :: (b ++ '\n' :: (c ++ ['\n']))) = [a, b, c] := by
  have h1 : splitNl (a ++ '\n' :: (b ++ '\n' :: (c ++ ['\n']))) = [a, b, c, []] := by
    rw [splitNl_append a _ ha, splitNl_append b _ hb]
    rw [show (c ++ ['\n'] : Str) = c ++ '\n' :: [] from rfl, splitNl_append c [] hc]
    rfl
  simp [fileLines, h1]

/- ===== Claim C6 ===== -/

/-- C6 (counterexample): a persisted record with fewer than three lines does
not fall back to the built-in defaults — selecting the Custom variant on a
two-line record raises an IndexError (only a missing file is caught). -/
theorem C6_counterexample :
    switch_tts_model jparseOk ⟨.named f5Str, some "a\nb\n".data⟩ customStr =
      .error .indexError := by
  decide

/-- C6 (amended): only a missing record file falls back: selecting the
Custom variant with no persisted record restores the built-in default
checkpoint, vocabulary and config (given that the default config parses);
short or corrupt records instead raise. -/
theorem C6_missing_falls_back (jparse : JParse) (st : ModelState) (c : Str)
    (hf : st.file = none) (hj : jparse defaultCfg = some c) :
    switch_tts_model jparse st customStr =
      .ok (⟨.custom defaultCkpt defaultVocab c, st.file⟩,
        ⟨true, some defaultCkpt⟩, ⟨true, some defaultVocab⟩, ⟨true, some defaultCfg⟩) := by
  simp only [switch_tts_model, if_pos rfl, hf, load_last_used_custom]
  simp [hj]

/-- C6 (witness): the missing-record fallback evaluated concretely. -/
theorem C6_witness :
    switch_tts_model jparseOk ⟨TtsChoice.named f5Str, none⟩ customStr =
      .ok (⟨.custom defaultCkpt defaultVocab defaultCfg, none⟩,
        ⟨true, some defaultCkpt⟩, ⟨true, some defaultVocab⟩, ⟨true, some defaultCfg⟩) :=
  C6_missing_falls_back jparseOk ⟨TtsChoice.named f5Str, none⟩ defaultCfg rfl rfl

/- ===== Claim C5 ===== -/

/-- C5 (counterexample): the set / switch-away / switch-back round trip is
not the identity when an entered field carries surrounding whitespace:
setting the Custom checkpoint to the two characters "a " (trailing space)
with the valid JSON config string for the empty object — so every
json.loads the trace performs genuinely succeeds — persists the record,
switching to the built-in variant and back then restores the stripped value
"a", not the previously persisted "a ". -/
theorem C5_counterexample :
    set_custom_model jparseObj ⟨.named f5Str, none⟩ ['a', ' '] ['b'] emptyObj =
      .ok ⟨.custom ['a', ' '] ['b'] emptyObj, some "a \nb\n\x7b\x7d\n".data⟩ ∧
    switch_tts_model jparseObj
        ⟨.custom ['a', ' '] ['b'] emptyObj, some "a \nb\n\x7b\x7d\n".data⟩ f5Str =
      .ok (⟨.named f5Str, some "a \nb\n\x7b\x7d\n".data⟩,
        ⟨false, none⟩, ⟨false, none⟩, ⟨false, none⟩) ∧
    switch_tts_model jparseObj ⟨.named f5Str, some "a \nb\n\x7b\x7d\n".data⟩ customStr =
      .ok (⟨.custom ['a'] ['b'] emptyObj, some "a \nb\n\x7b\x7d\n".data⟩,
        ⟨true, some ['a']⟩, ⟨true, some ['b']⟩, ⟨true, some emptyObj⟩) ∧
    (['a'] : Str) ≠ ['a', ' '] := by
  decide

/-- C5 (amended): setting the Custom fields, switching to another variant
and switching back restores exactly the entered checkpoint, vocabulary and
config, provided each entered value contains no newline and carries no
leading or trailing whitespace (the reload splits the record into lines and
strips each; in general the restored values are the stripped lines). -/
theorem C5_roundtrip (jparse : JParse) (st : ModelState) (ckpt vocab cfg c other : Str)
    (hs1 : pyStrip ckpt = ckpt) (hs2 : pyStrip vocab = vocab) (hs3 : pyStrip cfg = cfg)
    (hn1 : '\n' ∉ ckpt) (hn2 : '\n' ∉ vocab) (hn3 : '\n' ∉ cfg)
    (hj : jparse cfg = some c) (hb : other ≠ customStr) :
    set_custom_model jparse st ckpt vocab cfg =
      .ok ⟨.custom ckpt vocab c, some (ckpt ++ '\n' :: (vocab ++ '\n' :: (cfg ++ ['\n'])))⟩ ∧
    switch_tts_model jparse
        ⟨.custom ckpt vocab c, some (ckpt ++ '\n' :: (vocab ++ '\n' :: (cfg ++ ['\n'])))⟩
        other =
      .ok (⟨.named other, some (ckpt ++ '\n' :: (vocab ++ '\n' :: (cfg ++ ['\n'])))⟩,
        ⟨false, none⟩, ⟨false, none⟩, ⟨false, none⟩) ∧
    switch_tts_model jparse
        ⟨.named other, some (ckpt ++ '\n' :: (vocab ++ '\n' :: (cfg ++ ['\n'])))⟩ customStr =
      .ok (⟨.custom ckpt vocab c, some (ckpt ++ '\n' :: (vocab ++ '\n' :: (cfg ++ ['\n'])))⟩,
        ⟨true, some ckpt⟩, ⟨true, some vocab⟩, ⟨true, some cfg⟩) := by
  refine ⟨?_, ?_, ?_⟩
  · simp [set_custom_model, hj]
  · simp [switch_tts_model, hb]
  · have hlines := fileLines_three ckpt vocab cfg hn1 hn2 hn3
    simp only [switch_tts_model, if_pos rfl, load_last_used_custom, hlines, List.map_cons,
      List.map_nil, hs1, hs2, hs3]
    simp [hj]

/-- C5 (witness): the amended round trip evaluated on clean concrete values
whose config is the genuinely valid JSON empty object. -/
theorem C5_witness :
    set_custom_model jparseObj ⟨TtsChoice.named f5Str, none⟩ ['a'] ['b'] emptyObj =
      .ok ⟨.custom ['a'] ['b'] emptyObj,
        some (['a'] ++ '\n' :: (['b'] ++ '\n' :: (emptyObj ++ ['\n'])))⟩ ∧
    switch_tts_model jparseObj
        ⟨.custom ['a'] ['b'] emptyObj, some (['a'] ++ '\n' :: (['b'] ++ '\n' :: (emptyObj ++ ['\n'])))⟩
        f5Str =
      .ok (⟨.named f5Str, some (['a'] ++ '\n' :: (['b'] ++ '\n' :: (emptyObj ++ ['\n'])))⟩,
        ⟨false, none⟩, ⟨false, none⟩, ⟨false, none⟩) ∧
    switch_tts_model jparseObj
        ⟨.named f5Str, some (['a'] ++ '\n' :: (['b'] ++ '\n' :: (emptyObj ++ ['\n'])))⟩ customStr =
      .ok (⟨.custom ['a'] ['b'] emptyObj,
        some (['a'] ++ '\n' :: (['b'] ++ '\n' :: (emptyObj ++ ['\n'])))⟩,
        ⟨true, some ['a']⟩, ⟨true, some ['b']⟩, ⟨true, some emptyObj⟩) :=
  C5_roundtrip jparseObj ⟨TtsChoice.named f5Str, none⟩ ['a'] ['b'] emptyObj emptyObj f5Str
    (by decide) (by decide) (by decide) (by decide) (by decide) (by decide) (by decide) (by decide)

/- ===== Dispatcher and dictionary lemmas for claims C4 and C7 ===== -/

theorem inferE_ok (eng : Engine) (a : Str) (rt : Option Str) (gt : Str)
    (ha : ¬a = []) (hg : ¬pyStrip gt = []) :
    inferE eng (some a) rt gt =
      .ok (eng a rt gt).sr (eng a rt gt).wave (eng a rt gt).spectro (eng a rt gt).refTextOut := by
  simp only [inferE, pyTruthy, if_neg ha, Option.getD_some]
  rw [if_neg (by simp : ¬(true = false)), if_neg hg]

theorem odLookup_setRefText (k : Str) (rt : Option Str) (k' : Str) :
    ∀ st : SpeechDict, odLookup k' (odSetRefText k rt st) =
      (odLookup k' st).map (fun e => if k' = k then ⟨e.audio, rt⟩ else e) := by
  intro st
  induction st with
  | nil => rfl
  | cons p rest ih =>
    obtain ⟨k0, e0⟩ := p
    by_cases h0 : k0 = k
    · simp only [odSetRefText, if_pos h0, odLookup]
      by_cases h1 : k0 = k'
      · rw [if_pos h1, if_pos h1]
        have hk : k' = k := by rw [← h1, h0]
        simp [hk]
      · rw [if_neg h1, if_neg h1]
        have hk : ¬k' = k := by
          intro heq
          exact h1 (by rw [h0, ← heq])
        cases hrest : odLookup k' rest <;> simp [hk]
    · simp only [odSetRefText, if_neg h0, odLookup]
      by_cases h1 : k0 = k'
      · rw [if_pos h1, if_pos h1]
        have hk : ¬k' = k := by
          intro heq
          exact h0 (by rw [h1, heq])
        simp [hk]
      · rw [if_neg h1, if_neg h1]
        exact ih

theorem odLookup_setRefText_isSome (k : Str) (rt : Option Str) (k' : Str) (st : SpeechDict) :
    (odLookup k' (odSetRefText k rt st)).isSome = (odLookup k' st).isSome := by
  rw [odLookup_setRefText]
  cases odLookup k' st <;> rfl

theorem odLookup_setRefText_none (k : Str) (rt : Option Str) (k' : Str) (st : SpeechDict) :
    odLookup k' st = none → odLookup k' (odSetRefText k rt st) = none := by
  intro h
  rw [odLookup_setRefText, h]
  rfl

theorem resolveStyle_setRefText (k : Str) (rt : Option Str) (st : SpeechDict) (style : Str) :
    resolveStyle (odSetRefText k rt st) style = resolveStyle st style := by
  simp only [resolveStyle, odLookup_setRefText_isSome]

theorem segReadyB_setRefText (nmod : Option (Option (Str → Str))) (k : Str) (rt : Option Str)
    (st : SpeechDict) (seg : Segment) :
    segReadyB nmod (odSetRefText k rt st) seg = segReadyB nmod st seg := by
  simp only [segReadyB, resolveStyle_setRefText, odLookup_setRefText]
  cases odLookup (resolveStyle st seg.style) st with
  | none => rfl
  | some e =>
    by_cases hk : resolveStyle st seg.style = k
    · simp [hk]
    · simp [hk]

/- ===== The generation loop reaching an undefined default style ===== -/

theorem msLoop_reaches (eng : Engine) (nmod : Option (Option (Str → Str))) :
    ∀ (pre : List Segment) (st : SpeechDict) (warns : List Str) (acc : List (List Int))
      (sr : Nat) (bad : Segment) (post : List Segment),
      pre.all (segReadyB nmod st) = true →
      odLookup bad.style st = none → odLookup regularStr st = none →
      ∃ w rts, msLoop eng nmod st warns acc sr (pre ++ bad :: post) = .done w none rts ∧
        warnNotAvail bad.style ∈ w ∧ warnProvideFor regularStr ∈ w := by
  intro pre
  induction pre with
  | nil =>
    intro st warns acc sr bad post _ hbad hreg
    refine ⟨(warns ++ [warnNotAvail bad.style]) ++ [warnProvideFor regularStr],
      refTextsOf st, ?_, by simp, by simp⟩
    simp [msLoop, hbad, hreg]
  | cons s pre ih =>
    intro st warns acc sr bad post hall hbad hreg
    simp only [List.all_cons, Bool.and_eq_true] at hall
    obtain ⟨hs, hall⟩ := hall
    cases hcur : odLookup (resolveStyle st s.style) st with
    | none => simp [segReadyB, hcur] at hs
    | some e =>
      simp only [segReadyB, hcur] at hs
      by_cases ha : e.audio = []
      · rw [if_pos ha] at hs
        exact absurd hs (by simp)
      · rw [if_neg ha] at hs
        by_cases ht : pyStrip (normApp nmod s.text) = []
        · rw [if_pos ht] at hs
          exact absurd hs (by simp)
        · simp only [List.cons_append, msLoop]
          rw [show (if (odLookup s.style st).isSome then s.style else regularStr : Str) =
                resolveStyle st s.style from rfl]
          simp only [hcur, inferE_ok eng e.audio e.refText (normApp nmod s.text) ha ht]
          exact ih (odSetRefText (resolveStyle st s.style)
              (some (eng e.audio e.refText (normApp nmod s.text)).refTextOut) st)
            (if (odLookup s.style st).isSome then warns else warns ++ [warnNotAvail s.style])
            (acc ++ [(eng e.audio e.refText (normApp nmod s.text)).wave])
            ((eng e.audio e.refText (normApp nmod s.text)).sr) bad post
            (by rw [funext (segReadyB_setRefText nmod (resolveStyle st s.style)
                (some (eng e.audio e.refText (normApp nmod s.text)).refTextOut) st)]
                exact hall)
            (odLookup_setRefText_none _ _ _ _ hbad)
            (odLookup_setRefText_none _ _ _ _ hreg)

/- ===== Claim C7 ===== -/

theorem msLoop_nmod_id (eng : Engine) :
    ∀ (segs : List Segment) (st : SpeechDict) (warns : List Str) (acc : List (List Int))
      (sr : Nat),
      msLoop eng (some none) st warns acc sr segs = msLoop eng none st warns acc sr segs := by
  intro segs
  induction segs with
  | nil => intro st warns acc sr; rfl
  | cons seg segs ih =>
    intro st warns acc sr
    cases hcur : odLookup (if (odLookup seg.style st).isSome then seg.style else regularStr) st with
    | none => simp only [msLoop, normApp, hcur]
    | some e =>
      cases hinf : inferE eng (some e.audio) e.refText seg.text with
      | early w rt => simp only [msLoop, normApp, hcur, hinf]
      | ok sr' wave sp rto =>
        simp only [msLoop, normApp, hcur, hinf]
        exact ih _ _ _ _

/-- C7 (counterexample): with a chosen normaliser whose plugin file is
missing, the multi-style path behaves exactly as the identity transform but
emits no diagnostic message (the source prints nothing on that path),
contradicting the claim that both paths emit one. -/
theorem C7_counterexample :
    (generate_multistyle eng0 env0 "hi".data [] [] [] ['x']).2 = [] ∧
    (generate_multistyle eng0 env0 "hi".data [] [] [] ['x']).1 =
      (generate_multistyle eng0 env0 "hi".data [] [] [] noneChoice).1 := by
  decide

/-- C7 (amended): a missing normaliser file or a module without the
designated `normalize` function degrades to the identity transform without
aborting in both paths; the basic TTS path prints a diagnostic message, but
the multi-style path does so silently, printing none. -/
theorem C7_degrades_identity (eng : Engine) (env : NormEnv) (ra rt : Option Str) (gt : Str)
    (names audios refs : List (Option Str)) (choice : Str)
    (hc : ¬choice = noneChoice) (hmiss : env choice = none ∨ env choice = some none) :
    (basic_tts eng env ra rt gt choice).1 = inferE eng ra rt gt ∧
    (basic_tts eng env ra rt gt choice).2 ≠ [] ∧
    (generate_multistyle eng env gt names audios refs choice).1 =
      (generate_multistyle eng env gt names audios refs noneChoice).1 ∧
    (generate_multistyle eng env gt names audios refs choice).2 = [] := by
  rcases hmiss with hm | hm
  · refine ⟨?_, ?_, ?_, ?_⟩
    · simp [basic_tts, basicNormalize, hc, hm]
    · simp [basic_tts, basicNormalize, hc, hm]
    · simp [generate_multistyle, msNormLoad, hc, hm]
    · simp [generate_multistyle, msNormLoad, hc, hm]
  · refine ⟨?_, ?_, ?_, ?_⟩
    · simp [basic_tts, basicNormalize, hc, hm]
    · simp [basic_tts, basicNormalize, hc, hm]
    · simp only [generate_multistyle, msNormLoad, if_neg hc, hm, if_pos rfl]
      exact msLoop_nmod_id eng _ _ _ _ _
    · simp [generate_multistyle, msNormLoad, hc, hm]

/-- C7 (witness): the amended statement evaluated with every plugin file
missing. -/
theorem C7_witness :
    (basic_tts eng0 env0 (some ['r']) none "hi".data ['x']).1 =
      inferE eng0 (some ['r']) none "hi".data ∧
    (basic_tts eng0 env0 (some ['r']) none "hi".data ['x']).2 ≠ [] ∧
    (generate_multistyle eng0 env0 "hi".data [] [] [] ['x']).1 =
      (generate_multistyle eng0 env0 "hi".data [] [] [] noneChoice).1 ∧
    (generate_multistyle eng0 env0 "hi".data [] [] [] ['x']).2 = [] :=
  C7_degrades_identity eng0 env0 (some ['r']) none "hi".data [] [] [] ['x']
    (by decide) (Or.inl rfl)

/- ===== Claim C4 ===== -/

/-- C4 (counterexample): a resolved style can lack reference audio without
taking the warning-and-return path: an incomplete speech-type row is stored
under the placeholder key "@1@" with empty audio; a segment addressed to
that key resolves to it (it is a key, so no fallback warning and no
KeyError), the dispatcher returns early on the empty audio, and the
subsequent (sample rate, audio) unpacking raises — the request raises
instead of returning no audio together with a warning naming the style. -/
theorem C4_counterexample :
    odLookup (atKey 1)
        (buildST 0 (zip3 [some "Regular".data, none] [some ['x'], none] [some [], none]) []) =
      some ⟨[], some []⟩ ∧
    (generate_multistyle eng0 env0 "\x7b@1@\x7d hi".data
        [some "Regular".data, none] [some ['x'], none] [some [], none] noneChoice).1 =
      .raised [warnNeedRefAudio] .unpackError := by
  decide

/-- C4 (amended): in a multi-style request, each segment whose style label
is not a key of the speech-types mapping (defined names and positional
placeholders) resolves to the default style "Regular" with a warning; and
when that resolved default is itself not a key — provided the segments
before the offending one all proceed normally — the whole request returns no
audio together with a warning naming the default style (the source's
KeyError path), rather than failing silently. -/
theorem C4_missing_regular_aborts (eng : Engine) (env : NormEnv) (gt : Str)
    (names audios refs : List (Option Str)) (choice : Str)
    (pre : List Segment) (bad : Segment) (post : List Segment)
    (hsplit : parseSegments gt = pre ++ bad :: post)
    (hready : pre.all
      (segReadyB (msNormLoad env choice).1 (buildST 0 (zip3 names audios refs) [])) = true)
    (hbad : odLookup bad.style (buildST 0 (zip3 names audios refs) []) = none)
    (hreg : odLookup regularStr (buildST 0 (zip3 names audios refs) []) = none) :
    ∃ w rts, (generate_multistyle eng env gt names audios refs choice).1 = .done w none rts ∧
      warnNotAvail bad.style ∈ w ∧ warnProvideFor regularStr ∈ w := by
  simp only [generate_multistyle]
  rw [hsplit]
  exact msLoop_reaches eng (msNormLoad env choice).1 pre
    (buildST 0 (zip3 names audios refs) []) [] [] 0 bad post hready hbad hreg

/-- C4 (witness): the amended abort evaluated concretely: no speech type is
defined, and the script addresses an undefined style. -/
theorem C4_witness :
    ∃ w rts, (generate_multistyle eng0 env0 "\x7bHappy\x7d hi".data [] [] [] noneChoice).1 =
      .done w none rts ∧
      warnNotAvail "Happy".data ∈ w ∧ warnProvideFor regularStr ∈ w :=
  C4_missing_regular_aborts eng0 env0 "\x7bHappy\x7d hi".data [] [] [] noneChoice
    [] ⟨"Happy".data, "hi".data⟩ [] (by decide) (by decide) (by decide) (by decide)
